import Mathlib

/-!
Verification of the physics/particle kernel of `lander.py`, a 2D lunar-lander
simulation.

Python float arithmetic is idealised as real-number arithmetic.  The `pygame`
rendering, image handling and event loop are external I/O collaborators and are
not modelled.  The process-global `Spark.sparks` list is modelled by explicit
state passing (every function that reads or mutates it takes the list and
returns the new one), and the two `random.uniform` draws inside
`Spark.__init__` are modelled as explicit noise parameters.
-/

namespace Lander

noncomputable section

/-- `HALF_PI = math.pi/2.0`. -/
def HALF_PI : ℝ := Real.pi / 2

/-- `EMPTY_MASS = 5000` (kilograms). -/
def EMPTY_MASS : ℝ := 5000

/-- `EXHAUST_VELOCITY = 500` (m/s). -/
def EXHAUST_VELOCITY : ℝ := 500

/-- `G = 10.0` (m/s²). -/
def G : ℝ := 10.0

/-- `THROTTLE_MAX = 600` (kg/s). -/
def THROTTLE_MAX : ℝ := 600

/-- `TURN_RATE = 0.2` (radians per second). -/
def TURN_RATE : ℝ := 0.2

/-- `MAX_Y = 768`. -/
def MAX_Y : ℝ := 768

/-- `SPARKS_PER_KG = 0.5`. -/
def SPARKS_PER_KG : ℝ := 0.5

/-- `SPARK_LIFETIME = 1` (seconds). -/
def SPARK_LIFETIME : ℝ := 1

/-- `math.atan2 y x`, modelled as the argument of the complex number `x + y·i`
(range `(-π, π]`, `atan2 0 0 = 0`, matching the C/Python library function up to
the sign convention of `atan2(±0, negative)` which never matters here). -/
def atan2 (y x : ℝ) : ℝ := Complex.arg ⟨x, y⟩

/-- The `Vector` class: a polar-form 2D vector. -/
structure Vector where
  direction : ℝ
  magnitude : ℝ

/-- `Vector.horizontal_component`. -/
def Vector.horizontal_component (v : Vector) : ℝ := v.magnitude * Real.cos v.direction

/-- `Vector.vertical_component`. -/
def Vector.vertical_component (v : Vector) : ℝ := v.magnitude * Real.sin v.direction

/-- `Vector.__add__`: decompose both operands into Cartesian components, sum
them, and rebuild a polar vector with `math.atan2` and `math.sqrt`. -/
def Vector.add (a b : Vector) : Vector :=
  let x := a.horizontal_component + b.horizontal_component
  let y := a.vertical_component + b.vertical_component
  { direction := atan2 y x, magnitude := Real.sqrt (x * x + y * y) }

instance : Add Vector := ⟨Vector.add⟩

/-- The `Spark` class: one exhaust particle. -/
structure Spark where
  position : ℝ × ℝ
  velocity : Vector
  start_time : ℝ
  age : ℝ

/-- `Spark.__init__` minus the list insertion: `dnoise` and `vnoise` stand for
the `random.uniform(-SPARK_DIRECTION_VARIABILITY, SPARK_DIRECTION_VARIABILITY)`
and `random.uniform(-SPARK_VELOCITY_VARIABILITY, SPARK_VELOCITY_VARIABILITY)`
draws. -/
def Spark.init (position : ℝ × ℝ) (direction start_time dnoise vnoise : ℝ) : Spark :=
  { position := position
    velocity := { direction := direction + dnoise, magnitude := EXHAUST_VELOCITY + vnoise }
    start_time := start_time
    age := 0 }

/-- Full `Spark.__init__`, ending with `self.sparks.insert(0, self)`: builds
the spark and inserts it at index 0 of the given spark list. -/
def Spark.create (position : ℝ × ℝ) (direction start_time dnoise vnoise : ℝ)
    (sparks : List Spark) : List Spark :=
  Spark.init position direction start_time dnoise vnoise :: sparks

/-- `Spark.update`: advance position by the velocity components and add the
downward gravity vector to the velocity. -/
def Spark.update (sp : Spark) (delta_t : ℝ) : Spark :=
  let x := sp.position.1 + sp.velocity.horizontal_component * delta_t
  let y := sp.position.2 + sp.velocity.vertical_component * delta_t
  { sp with
      velocity := sp.velocity + { direction := -HALF_PI, magnitude := G * delta_t }
      position := (x, y) }

/-- `Spark.update_all`: walk the list front (newest) to back (oldest),
recompute each spark's age; at the first spark whose age exceeds 1 delete it
and every later spark (`del cls.sparks[i:]`) and stop; surviving sparks are
kinematically advanced by `Spark.update`. -/
def Spark.update_all (delta_t now : ℝ) : List Spark → List Spark
  | [] => []
  | sp :: rest =>
    let aged : Spark := { sp with age := (now - sp.start_time) / SPARK_LIFETIME }
    if aged.age > 1 then []
    else aged.update delta_t :: Spark.update_all delta_t now rest

/-- The `Ship` class (sprite/image fields are rendering-only and omitted). -/
structure Ship where
  position : ℝ × ℝ
  velocity : Vector
  orientation : ℝ
  throttle : ℝ
  rotation : ℝ
  fuel : ℝ

/-- The initial state built by `Ship.__init__`. -/
def Ship.init : Ship :=
  { position := (0, MAX_Y)
    velocity := { direction := 0, magnitude := 20 }
    orientation := 0
    throttle := 0
    rotation := 0
    fuel := 5000 }

/-- `Ship.mass`. -/
def Ship.mass (s : Ship) : ℝ := s.fuel + EMPTY_MASS

/-- The spark-spawning loop at the end of the thrust branch of `Ship.update`:
`for i in xrange(int(fuel_burned * SPARKS_PER_KG)): Spark(...)`.  Each
iteration prepends one spark to the list; `noise i` supplies the two random
draws of iteration `i`, so after the loop the front spark is the one from the
last iteration. -/
def spawnLoop (position : ℝ × ℝ) (direction now : ℝ) (noise : ℕ → ℝ × ℝ) :
    ℕ → List Spark → List Spark
  | 0, sparks => sparks
  | n + 1, sparks =>
      Spark.create position direction now (noise n).1 (noise n).2
        (spawnLoop position direction now noise n sparks)

/-- `Ship.update(self, delta_t, now)`.  The global spark list is passed and
returned explicitly; `noise` supplies the random draws of the sparks spawned
this tick; the sprite bookkeeping inside the rotation branch is rendering-only
and omitted (it writes no physical field).  `⌊·⌋.toNat` models
`xrange(int(...))`: `int` truncates toward zero and `xrange` of a negative
count is empty, which agree with `Int.toNat ∘ Int.floor` on every real. -/
def Ship.update (s : Ship) (delta_t now : ℝ) (sparks : List Spark)
    (noise : ℕ → ℝ × ℝ) : Ship × List Spark :=
  -- update position based on velocity
  let pos : ℝ × ℝ :=
    (s.position.1 + s.velocity.horizontal_component * delta_t,
     s.position.2 + s.velocity.vertical_component * delta_t)
  -- update velocity based on gravity
  let vel := s.velocity + { direction := -HALF_PI, magnitude := G * delta_t }
  -- further update velocity (and fuel) based on thrust
  let (s1, sparks1) :=
    if s.throttle > 0 then
      let burn := s.throttle * THROTTLE_MAX * delta_t
      let (fuel_burned, fuel1, throttle1) :=
        if burn > s.fuel then (s.fuel, (0 : ℝ), (0 : ℝ))
        else (burn, s.fuel - burn, s.throttle)
      let momentum := fuel_burned * EXHAUST_VELOCITY
      let sMid : Ship :=
        { s with position := pos, velocity := vel, fuel := fuel1, throttle := throttle1 }
      let vel1 :=
        vel + { direction := s.orientation + HALF_PI, magnitude := momentum / sMid.mass }
      ({ sMid with velocity := vel1 },
       spawnLoop pos (s.orientation - HALF_PI) now noise
         (⌊fuel_burned * SPARKS_PER_KG⌋.toNat) sparks)
    else
      ({ s with position := pos, velocity := vel }, sparks)
  -- update orientation based on rotation
  let s2 :=
    if s1.rotation ≠ 0 then
      { s1 with orientation := s1.orientation + s1.rotation * TURN_RATE * delta_t }
    else s1
  (s2, sparks1)

/-- `Ship.increase_throttle` (`if self.fuel:` is Python truthiness, i.e. a
no-op exactly when `fuel == 0`). -/
def Ship.increase_throttle (s : Ship) : Ship :=
  if s.fuel ≠ 0 then
    let t := s.throttle + 0.1
    { s with throttle := if t > 1.0 then 1.0 else t }
  else s

/-- `Ship.decrease_throttle`. -/
def Ship.decrease_throttle (s : Ship) : Ship :=
  let t := s.throttle - 0.1
  { s with throttle := if t < 0.0 then 0 else t }

/-- `Ship.set_rotation`. -/
def Ship.set_rotation (s : Ship) (rotation : ℝ) : Ship := { s with rotation := rotation }

/-- A run of the per-frame physics step of the main loop: each tick carries its
`delta_t`, its `now` timestamp, and the noise of the sparks it spawns. -/
def Ship.run : Ship × List Spark → List (ℝ × ℝ × (ℕ → ℝ × ℝ)) → Ship × List Spark
  | st, [] => st
  | (s, sparks), (delta_t, now, noise) :: rest =>
      Ship.run (s.update delta_t now sparks noise) rest

/-- A run of spark creations against the shared spark list: each request
carries position, base direction, spawn timestamp and the two noise draws. -/
def spawnRun : List Spark → List ((ℝ × ℝ) × ℝ × ℝ × ℝ × ℝ) → List Spark
  | sparks, [] => sparks
  | sparks, (position, direction, start_time, dnoise, vnoise) :: rest =>
      spawnRun (Spark.create position direction start_time dnoise vnoise sparks) rest

/-! ### Helper lemmas -/

theorem Vector.add_def (a b : Vector) : a + b = a.add b := rfl

/-- Rebuilding a Cartesian pair into a polar vector preserves the horizontal
component: `√(x² + y²) · cos (atan2 y x) = x`. -/
theorem sqrt_mul_cos_atan2 (y x : ℝ) :
    Real.sqrt (x * x + y * y) * Real.cos (atan2 y x) = x := by
  have habs : Complex.abs ⟨x, y⟩ = Real.sqrt (x * x + y * y) := by
    rw [Complex.abs_apply, Complex.normSq_mk]
  by_cases hz : (⟨x, y⟩ : ℂ) = 0
  · have hx : x = 0 := congrArg Complex.re hz
    have hy : y = 0 := congrArg Complex.im hz
    simp [atan2, hx, hy]
  · have hne : Real.sqrt (x * x + y * y) ≠ 0 := by
      rw [← habs]; exact (map_ne_zero Complex.abs).mpr hz
    rw [atan2, Complex.cos_arg hz, show ((⟨x, y⟩ : ℂ)).re = x from rfl, habs,
      mul_comm, div_mul_cancel₀ _ hne]

/-- Rebuilding a Cartesian pair into a polar vector preserves the vertical
component: `√(x² + y²) · sin (atan2 y x) = y`. -/
theorem sqrt_mul_sin_atan2 (y x : ℝ) :
    Real.sqrt (x * x + y * y) * Real.sin (atan2 y x) = y := by
  have habs : Complex.abs ⟨x, y⟩ = Real.sqrt (x * x + y * y) := by
    rw [Complex.abs_apply, Complex.normSq_mk]
  rw [atan2, Complex.sin_arg, show ((⟨x, y⟩ : ℂ)).im = y from rfl, habs]
  by_cases hs : Real.sqrt (x * x + y * y) = 0
  · have hsq : x * x + y * y = 0 := by
      have h0 := Real.sqrt_eq_zero'.mp hs
      linarith [mul_self_nonneg x, mul_self_nonneg y]
    have hy : y = 0 := by
      have hxx : 0 ≤ x * x := mul_self_nonneg x
      have hyy : y * y = 0 := by nlinarith [mul_self_nonneg y]
      exact mul_self_eq_zero.mp hyy
    simp [hs, hy]
  · rw [mul_comm, div_mul_cancel₀ _ hs]

/-- The horizontal component of `Vector.__add__` is the sum of the operands'
horizontal components. -/
theorem Vector.horizontal_component_add (a b : Vector) :
    (a + b).horizontal_component = a.horizontal_component + b.horizontal_component :=
  sqrt_mul_cos_atan2 _ _

/-- The vertical component of `Vector.__add__` is the sum of the operands'
vertical components. -/
theorem Vector.vertical_component_add (a b : Vector) :
    (a + b).vertical_component = a.vertical_component + b.vertical_component :=
  sqrt_mul_sin_atan2 _ _

/-- Each iteration of the spawn loop adds exactly one spark. -/
theorem spawnLoop_length (position : ℝ × ℝ) (direction now : ℝ) (noise : ℕ → ℝ × ℝ) :
    ∀ (n : ℕ) (sparks : List Spark),
      (spawnLoop position direction now noise n sparks).length = n + sparks.length := by
  intro n
  induction n with
  | zero => intro sparks; simp [spawnLoop]
  | succ k ih =>
      intro sparks
      simp only [spawnLoop, Spark.create, List.length_cons, ih]
      omega

/-! ### Claim theorems -/

/-- Claim C8: from the initial ship (position `(0, 768)`, velocity
`(direction 0, magnitude 20)`, fuel `5000`, throttle `0`, rotation `0`), one
`Ship.update` with `dt = 1/30` moves the position by `20·dt = 2/3` horizontally
only, leaves the velocity with horizontal component `20` and a new downward
vertical component `-G·dt = -(1/3)` (recombined through `atan2`/hypotenuse),
and changes nothing else: fuel, throttle, orientation and rotation are
unchanged and no sparks are spawned. -/
theorem ship_coast_tick (now : ℝ) (sparks : List Spark) (noise : ℕ → ℝ × ℝ) :
    (Ship.init.update (1 / 30) now sparks noise).1.position = (2 / 3, 768) ∧
    (Ship.init.update (1 / 30) now sparks noise).1.velocity.horizontal_component = 20 ∧
    (Ship.init.update (1 / 30) now sparks noise).1.velocity.vertical_component = -(1 / 3) ∧
    (Ship.init.update (1 / 30) now sparks noise).1.fuel = 5000 ∧
    (Ship.init.update (1 / 30) now sparks noise).1.throttle = 0 ∧
    (Ship.init.update (1 / 30) now sparks noise).1.orientation = 0 ∧
    (Ship.init.update (1 / 30) now sparks noise).1.rotation = 0 ∧
    (Ship.init.update (1 / 30) now sparks noise).2 = sparks := by
  have hupd : Ship.init.update (1 / 30) now sparks noise =
      ({ position := (2 / 3, 768),
         velocity := Vector.mk 0 20 + { direction := -HALF_PI, magnitude := G * (1 / 30) },
         orientation := 0, throttle := 0, rotation := 0, fuel := 5000 }, sparks) := by
    simp only [Ship.update, Ship.init]
    norm_num [Vector.horizontal_component, Vector.vertical_component, MAX_Y]
  rw [hupd]
  refine ⟨rfl, ?_, ?_, rfl, rfl, rfl, rfl, rfl⟩
  · rw [Vector.horizontal_component_add]
    norm_num [Vector.horizontal_component, HALF_PI, G]
  · rw [Vector.vertical_component_add]
    norm_num [Vector.vertical_component, HALF_PI, G]

/-- Claim C4: from the initial ship with throttle set to `1`, one `Ship.update`
with `dt = 1/30` burns exactly `1 · 600 · (1/30) = 20` kg of fuel, leaves
`fuel = 4980`, and spawns exactly `⌊20 · 0.5⌋ = 10` new sparks. -/
theorem ship_full_throttle_tick (now : ℝ) (sparks : List Spark) (noise : ℕ → ℝ × ℝ) :
    ({ Ship.init with throttle := 1 } : Ship).throttle * THROTTLE_MAX * (1 / 30) = 20 ∧
    (({ Ship.init with throttle := 1 } : Ship).update (1 / 30) now sparks noise).1.fuel
      = 4980 ∧
    (({ Ship.init with throttle := 1 } : Ship).update (1 / 30) now sparks noise).2.length
      = sparks.length + 10 := by
  refine ⟨by norm_num [Ship.init, THROTTLE_MAX], ?_, ?_⟩
  · simp only [Ship.update, Ship.init]
    norm_num [THROTTLE_MAX]
  · simp only [Ship.update, Ship.init]
    norm_num [THROTTLE_MAX, SPARKS_PER_KG, spawnLoop_length]
    omega

/-- Claim C1 counterexample: with fuel `20` and throttle `1`, a `dt = 1/30 > 0`
tick computes `fuelBurned = 1·600·(1/30) = 20`, exactly the remaining fuel; the
fuel reaches 0 during the call, yet the throttle is still `1`, not `0`, at the
end of the call (the source tests `fuel_burned > self.fuel` strictly). -/
theorem throttle_survives_exact_burn :
    (0 : ℝ) < 1 / 30 ∧
    ({ Ship.init with throttle := 1, fuel := 20 } : Ship).throttle * THROTTLE_MAX * (1 / 30)
      = ({ Ship.init with throttle := 1, fuel := 20 } : Ship).fuel ∧
    (({ Ship.init with throttle := 1, fuel := 20 } : Ship).update (1 / 30) 0 []
        (fun _ => (0, 0))).1.fuel = 0 ∧
    (({ Ship.init with throttle := 1, fuel := 20 } : Ship).update (1 / 30) 0 []
        (fun _ => (0, 0))).1.throttle = 1 := by
  refine ⟨by norm_num, by norm_num [Ship.init, THROTTLE_MAX], ?_, ?_⟩
  · simp only [Ship.update, Ship.init]
    norm_num [THROTTLE_MAX]
  · simp only [Ship.update, Ship.init]
    norm_num [THROTTLE_MAX]

/-- Claim C1 (amended): in an update with the thrust branch active
(`throttle > 0`), if the computed burn strictly exceeds the remaining fuel the
burn is truncated, fuel becomes 0 and throttle is forced to 0 within the same
call; in the boundary case where the computed burn exactly equals the
remaining fuel, fuel becomes 0 but the throttle keeps its value for this
call. -/
theorem throttle_zeroed_on_overburn (s : Ship) (delta_t now : ℝ) (sparks : List Spark)
    (noise : ℕ → ℝ × ℝ) (hthr : 0 < s.throttle) :
    (s.throttle * THROTTLE_MAX * delta_t > s.fuel →
      (s.update delta_t now sparks noise).1.fuel = 0 ∧
      (s.update delta_t now sparks noise).1.throttle = 0) ∧
    (s.throttle * THROTTLE_MAX * delta_t = s.fuel →
      (s.update delta_t now sparks noise).1.fuel = 0 ∧
      (s.update delta_t now sparks noise).1.throttle = s.throttle) := by
  constructor
  · intro hburn
    simp only [Ship.update, if_pos hthr, if_pos hburn, apply_ite Ship.fuel,
      apply_ite Ship.throttle, ite_self]
    refine ⟨?_, ?_⟩ <;> first | rfl | trivial
  · intro hburn
    have hnot : ¬ (s.throttle * THROTTLE_MAX * delta_t > s.fuel) := by
      rw [hburn]; exact lt_irrefl _
    simp only [Ship.update, if_pos hthr, if_neg hnot, apply_ite Ship.fuel,
      apply_ite Ship.throttle, ite_self]
    refine ⟨?_, ?_⟩
    · show s.fuel - s.throttle * THROTTLE_MAX * delta_t = 0
      rw [hburn]; ring
    · first | rfl | trivial

/-- Witness for the amended C1 theorem at a concrete input: throttle `1`,
fuel `10`, `dt = 1/30`, so the computed burn `20` strictly exceeds the fuel. -/
theorem throttle_zeroed_on_overburn_witness :
    (0 : ℝ) < ({ Ship.init with throttle := 1, fuel := 10 } : Ship).throttle ∧
    ((({ Ship.init with throttle := 1, fuel := 10 } : Ship).throttle * THROTTLE_MAX * (1 / 30)
        > ({ Ship.init with throttle := 1, fuel := 10 } : Ship).fuel →
      (({ Ship.init with throttle := 1, fuel := 10 } : Ship).update (1 / 30) 0 []
          (fun _ => (0, 0))).1.fuel = 0 ∧
      (({ Ship.init with throttle := 1, fuel := 10 } : Ship).update (1 / 30) 0 []
          (fun _ => (0, 0))).1.throttle = 0) ∧
     (({ Ship.init with throttle := 1, fuel := 10 } : Ship).throttle * THROTTLE_MAX * (1 / 30)
        = ({ Ship.init with throttle := 1, fuel := 10 } : Ship).fuel →
      (({ Ship.init with throttle := 1, fuel := 10 } : Ship).update (1 / 30) 0 []
          (fun _ => (0, 0))).1.fuel = 0 ∧
      (({ Ship.init with throttle := 1, fuel := 10 } : Ship).update (1 / 30) 0 []
          (fun _ => (0, 0))).1.throttle
        = ({ Ship.init with throttle := 1, fuel := 10 } : Ship).throttle)) :=
  ⟨by norm_num [Ship.init],
   throttle_zeroed_on_overburn { Ship.init with throttle := 1, fuel := 10 } (1 / 30) 0 []
     (fun _ => (0, 0)) (by norm_num [Ship.init])⟩

/-- One `Ship.update` with `dt ≥ 0` from non-negative fuel never increases the
fuel, keeps it non-negative, and keeps a non-negative throttle
non-negative. -/
theorem Ship.update_fuel_step (s : Ship) (delta_t now : ℝ) (sparks : List Spark)
    (noise : ℕ → ℝ × ℝ) (hdt : 0 ≤ delta_t) (hfuel : 0 ≤ s.fuel) :
    (s.update delta_t now sparks noise).1.fuel ≤ s.fuel ∧
    0 ≤ (s.update delta_t now sparks noise).1.fuel ∧
    (0 ≤ s.throttle → 0 ≤ (s.update delta_t now sparks noise).1.throttle) := by
  by_cases hthr : s.throttle > 0
  · by_cases hburn : s.throttle * THROTTLE_MAX * delta_t > s.fuel
    · simp only [Ship.update, if_pos hthr, if_pos hburn, apply_ite Ship.fuel,
        apply_ite Ship.throttle, ite_self]
      exact ⟨hfuel, le_refl _, fun _ => le_refl _⟩
    · simp only [Ship.update, if_pos hthr, if_neg hburn, apply_ite Ship.fuel,
        apply_ite Ship.throttle, ite_self]
      have hb : 0 ≤ s.throttle * THROTTLE_MAX * delta_t := by
        have h6 : (0 : ℝ) ≤ THROTTLE_MAX := by norm_num [THROTTLE_MAX]
        positivity
      refine ⟨by linarith, by push_neg at hburn; linarith, fun h => h⟩
  · simp only [Ship.update, if_neg hthr, apply_ite Ship.fuel, apply_ite Ship.throttle,
      ite_self]
    exact ⟨le_refl _, hfuel, fun h => h⟩

/-- Over a run of ticks with non-negative `dt`, fuel is non-increasing and
stays non-negative. -/
theorem Ship.run_fuel (ticks : List (ℝ × ℝ × (ℕ → ℝ × ℝ))) :
    ∀ (s : Ship) (sparks : List Spark), 0 ≤ s.fuel → (∀ t ∈ ticks, 0 ≤ t.1) →
      (Ship.run (s, sparks) ticks).1.fuel ≤ s.fuel ∧
      0 ≤ (Ship.run (s, sparks) ticks).1.fuel := by
  induction ticks with
  | nil => intro s sparks h _; exact ⟨le_refl _, h⟩
  | cons t rest ih =>
      intro s sparks hfuel hdt
      obtain ⟨delta_t, now, noise⟩ := t
      have hdt0 : 0 ≤ delta_t := hdt _ (List.mem_cons_self _ _)
      have hstep := Ship.update_fuel_step s delta_t now sparks noise hdt0 hfuel
      have hrec := ih (s.update delta_t now sparks noise).1
        (s.update delta_t now sparks noise).2 hstep.2.1
        (fun u hu => hdt u (List.mem_cons_of_mem _ hu))
      simp only [Ship.run, Prod.mk.eta] at hrec ⊢
      exact ⟨le_trans hrec.1 hstep.1, hrec.2⟩

/-- Claim C3: over every run of `Ship.update` ticks with `dt ≥ 0`, starting
from non-negative fuel and throttle, the fuel is non-increasing and never
negative; and while fuel equals 0, `increase_throttle` — repeated any number
of times (fuel stays 0 throughout, since it never touches fuel) — changes no
ship field. -/
theorem fuel_monotone_and_empty_tank_noop
    (s : Ship) (sparks : List Spark) (ticks : List (ℝ × ℝ × (ℕ → ℝ × ℝ)))
    (s0 : Ship) (k : ℕ)
    (hfuel : 0 ≤ s.fuel) (hthr : 0 ≤ s.throttle) (hdt : ∀ t ∈ ticks, 0 ≤ t.1)
    (hempty : s0.fuel = 0) :
    ((Ship.run (s, sparks) ticks).1.fuel ≤ s.fuel ∧
     0 ≤ (Ship.run (s, sparks) ticks).1.fuel) ∧
    Ship.increase_throttle^[k] s0 = s0 := by
  refine ⟨Ship.run_fuel ticks s sparks hfuel hdt, ?_⟩
  have hfix : Ship.increase_throttle s0 = s0 := by
    simp [Ship.increase_throttle, hempty]
  exact Function.iterate_fixed hfix k

/-- Witness for C3 at a concrete input: the initial ship run for one tick of
`dt = 1`, and a zero-fuel ship under 5 repeated `increase_throttle` calls. -/
theorem fuel_monotone_and_empty_tank_noop_witness :
    ((0 : ℝ) ≤ Ship.init.fuel ∧ (0 : ℝ) ≤ Ship.init.throttle ∧
      ({ Ship.init with fuel := 0 } : Ship).fuel = 0) ∧
    ((Ship.run (Ship.init, []) [(1, 0, fun _ => (0, 0))]).1.fuel ≤ Ship.init.fuel ∧
     0 ≤ (Ship.run (Ship.init, []) [(1, 0, fun _ => (0, 0))]).1.fuel) ∧
    Ship.increase_throttle^[5] { Ship.init with fuel := 0 } =
      { Ship.init with fuel := 0 } :=
  ⟨⟨by norm_num [Ship.init], by norm_num [Ship.init], by norm_num [Ship.init]⟩,
   fuel_monotone_and_empty_tank_noop Ship.init [] [(1, 0, fun _ => (0, 0))]
     { Ship.init with fuel := 0 } 5
     (by norm_num [Ship.init]) (by norm_num [Ship.init])
     (by intro t ht; simp at ht; rw [ht]; norm_num) (by norm_num [Ship.init])⟩

/-- `increase_throttle` never changes the fuel. -/
theorem Ship.increase_throttle_fuel (s : Ship) : s.increase_throttle.fuel = s.fuel := by
  unfold Ship.increase_throttle
  split <;> rfl

/-- On a ship with fuel, `increase_throttle` sets the throttle to
`min 1 (throttle + 1/10)`. -/
theorem Ship.increase_throttle_throttle (s : Ship) (hf : s.fuel ≠ 0) :
    s.increase_throttle.throttle = min 1 (s.throttle + 1 / 10) := by
  unfold Ship.increase_throttle
  rw [if_pos hf]
  show (if s.throttle + 0.1 > 1.0 then (1.0 : ℝ) else s.throttle + 0.1) = _
  split
  · next h =>
      have h2 : (1 : ℝ) ≤ s.throttle + 1 / 10 := by norm_num at h; linarith
      rw [min_eq_left h2]
      norm_num
  · next h =>
      have h2 : s.throttle + 1 / 10 ≤ 1 := by push_neg at h; norm_num at h; linarith
      rw [min_eq_right h2]
      norm_num

/-- Iterating `increase_throttle` from throttle 0 with fuel: after `k` calls
the throttle is `min 1 (k/10)` and the fuel is unchanged. -/
theorem Ship.increase_throttle_iterate (s : Ship) (hf : s.fuel ≠ 0) (h0 : s.throttle = 0) :
    ∀ k : ℕ, (Ship.increase_throttle^[k] s).throttle = min 1 ((k : ℝ) / 10) ∧
             (Ship.increase_throttle^[k] s).fuel = s.fuel := by
  intro k
  induction k with
  | zero =>
      constructor
      · rw [Function.iterate_zero_apply, h0]; norm_num
      · rw [Function.iterate_zero_apply]
  | succ n ih =>
      obtain ⟨hthr, hfl⟩ := ih
      rw [Function.iterate_succ_apply']
      have hf2 : (Ship.increase_throttle^[n] s).fuel ≠ 0 := by rw [hfl]; exact hf
      refine ⟨?_, by rw [Ship.increase_throttle_fuel, hfl]⟩
      rw [Ship.increase_throttle_throttle _ hf2, hthr]
      have hnn : (0 : ℝ) ≤ (n : ℝ) / 10 := by positivity
      rcases le_total ((n : ℝ) / 10) 1 with h | h
      · rw [min_eq_right h]
        push_cast
        rcases le_total (((n : ℝ) + 1) / 10) 1 with h2 | h2
        · rw [min_eq_right (by linarith : (n : ℝ) / 10 + 1 / 10 ≤ 1),
            min_eq_right h2]
          ring
        · rw [min_eq_left (by linarith : (1 : ℝ) ≤ (n : ℝ) / 10 + 1 / 10),
            min_eq_left h2]
      · rw [min_eq_left h]
        push_cast
        rw [min_eq_left (by linarith : (1 : ℝ) ≤ 1 + 1 / 10),
          min_eq_left (by linarith : (1 : ℝ) ≤ ((n : ℝ) + 1) / 10)]

/-- Claim C6: starting from throttle 0 with positive fuel (fuel is untouched by
`increase_throttle`, so it stays positive throughout), 20 consecutive
`increase_throttle` calls leave the throttle exactly 1, and after any number of
calls the throttle never exceeds 1; every `decrease_throttle` call leaves the
throttle ≥ 0. -/
theorem throttle_saturates (s : Ship) (h0 : s.throttle = 0) (hf : 0 < s.fuel) :
    (Ship.increase_throttle^[20] s).throttle = 1 ∧
    (∀ k : ℕ, (Ship.increase_throttle^[k] s).throttle ≤ 1) ∧
    (∀ s2 : Ship, 0 ≤ s2.decrease_throttle.throttle) := by
  have hf0 : s.fuel ≠ 0 := ne_of_gt hf
  refine ⟨?_, ?_, ?_⟩
  · rw [(Ship.increase_throttle_iterate s hf0 h0 20).1]
    norm_num
  · intro k
    rw [(Ship.increase_throttle_iterate s hf0 h0 k).1]
    exact min_le_left _ _
  · intro s2
    unfold Ship.decrease_throttle
    show (0 : ℝ) ≤ (if s2.throttle - 0.1 < 0.0 then (0 : ℝ) else s2.throttle - 0.1)
    split
    · exact le_refl 0
    · next h => push_neg at h; norm_num at h; linarith

/-- Witness for C6 at a concrete input: the initial ship (throttle 0,
fuel 5000). -/
theorem throttle_saturates_witness :
    (Ship.init.throttle = 0 ∧ (0 : ℝ) < Ship.init.fuel) ∧
    ((Ship.increase_throttle^[20] Ship.init).throttle = 1 ∧
     (∀ k : ℕ, (Ship.increase_throttle^[k] Ship.init).throttle ≤ 1) ∧
     (∀ s2 : Ship, 0 ≤ s2.decrease_throttle.throttle)) :=
  ⟨⟨by norm_num [Ship.init], by norm_num [Ship.init]⟩,
   throttle_saturates Ship.init (by norm_num [Ship.init]) (by norm_num [Ship.init])⟩

/-- Claim C9: for any ship with non-negative fuel, the mass — the divisor of
the thrust computation — is at least `EMPTY_MASS = 5000`, hence positive, so
`momentum / mass` never divides by zero; and a `dt ≥ 0` update keeps the fuel
non-negative, so the post-burn mass (the divisor actually used) is positive
too. -/
theorem mass_at_least_empty_mass (s : Ship) (hfuel : 0 ≤ s.fuel) :
    EMPTY_MASS ≤ s.mass ∧ (0 : ℝ) < s.mass ∧
    ∀ (delta_t now : ℝ) (sparks : List Spark) (noise : ℕ → ℝ × ℝ), 0 ≤ delta_t →
      EMPTY_MASS ≤ (s.update delta_t now sparks noise).1.mass ∧
      (0 : ℝ) < (s.update delta_t now sparks noise).1.mass := by
  have hm : ∀ s2 : Ship, 0 ≤ s2.fuel → EMPTY_MASS ≤ s2.mass ∧ (0 : ℝ) < s2.mass := by
    intro s2 h2
    unfold Ship.mass EMPTY_MASS
    norm_num
    constructor <;> linarith
  refine ⟨(hm s hfuel).1, (hm s hfuel).2, ?_⟩
  intro delta_t now sparks noise hdt
  exact hm _ (Ship.update_fuel_step s delta_t now sparks noise hdt hfuel).2.1

/-- Witness for C9 at a concrete input: the initial ship. -/
theorem mass_at_least_empty_mass_witness :
    (0 : ℝ) ≤ Ship.init.fuel ∧
    (EMPTY_MASS ≤ Ship.init.mass ∧ (0 : ℝ) < Ship.init.mass ∧
     ∀ (delta_t now : ℝ) (sparks : List Spark) (noise : ℕ → ℝ × ℝ), 0 ≤ delta_t →
       EMPTY_MASS ≤ (Ship.init.update delta_t now sparks noise).1.mass ∧
       (0 : ℝ) < (Ship.init.update delta_t now sparks noise).1.mass) :=
  ⟨by norm_num [Ship.init], mass_at_least_empty_mass Ship.init (by norm_num [Ship.init])⟩

/-- Claim C10: in a thrusting update (`throttle > 0`) the new velocity is the
gravity-updated velocity plus a thrust vector whose magnitude is
`(fuelBurned · EXHAUST_VELOCITY) / (EMPTY_MASS + fuel_after)`, where
`fuelBurned = min (throttle·THROTTLE_MAX·dt) fuel` is the (possibly truncated)
burn and `fuel_after` is the fuel remaining after this tick's deduction: the
mass divisor is evaluated after the fuel update, not on the pre-burn fuel. -/
theorem thrust_divisor_is_post_burn_mass (s : Ship) (delta_t now : ℝ)
    (sparks : List Spark) (noise : ℕ → ℝ × ℝ) (hthr : 0 < s.throttle) :
    (s.update delta_t now sparks noise).1.velocity =
      (s.velocity + { direction := -HALF_PI, magnitude := G * delta_t }) +
      { direction := s.orientation + HALF_PI,
        magnitude := min (s.throttle * THROTTLE_MAX * delta_t) s.fuel * EXHAUST_VELOCITY /
          (EMPTY_MASS + (s.update delta_t now sparks noise).1.fuel) } := by
  by_cases hburn : s.throttle * THROTTLE_MAX * delta_t > s.fuel
  · simp only [Ship.update, if_pos hthr, if_pos hburn, apply_ite Ship.velocity,
      apply_ite Ship.fuel, ite_self, Ship.mass]
    rw [min_eq_right (le_of_lt hburn), add_comm (EMPTY_MASS) 0]
  · simp only [Ship.update, if_pos hthr, if_neg hburn, apply_ite Ship.velocity,
      apply_ite Ship.fuel, ite_self, Ship.mass]
    push_neg at hburn
    rw [min_eq_left hburn, add_comm (EMPTY_MASS) (s.fuel - s.throttle * THROTTLE_MAX * delta_t)]

/-- Witness for C10 at a concrete input: the initial ship with throttle 1 and
`dt = 1/30`. -/
theorem thrust_divisor_is_post_burn_mass_witness :
    (0 : ℝ) < ({ Ship.init with throttle := 1 } : Ship).throttle ∧
    (({ Ship.init with throttle := 1 } : Ship).update (1 / 30) 0 []
        (fun _ => (0, 0))).1.velocity =
      (({ Ship.init with throttle := 1 } : Ship).velocity +
        { direction := -HALF_PI, magnitude := G * (1 / 30) }) +
      { direction := ({ Ship.init with throttle := 1 } : Ship).orientation + HALF_PI,
        magnitude :=
          min (({ Ship.init with throttle := 1 } : Ship).throttle * THROTTLE_MAX * (1 / 30))
              ({ Ship.init with throttle := 1 } : Ship).fuel * EXHAUST_VELOCITY /
            (EMPTY_MASS +
              (({ Ship.init with throttle := 1 } : Ship).update (1 / 30) 0 []
                  (fun _ => (0, 0))).1.fuel) } :=
  ⟨by norm_num [Ship.init],
   thrust_divisor_is_post_burn_mass { Ship.init with throttle := 1 } (1 / 30) 0 []
     (fun _ => (0, 0)) (by norm_num [Ship.init])⟩

/-- Claim C5: `Vector.__add__` is commutative and associative at the level of
Cartesian components (horizontal and vertical components of `a+b` equal those
of `b+a`, and those of `(a+b)+c` equal those of `a+(b+c)`), and adding
`(direction 0, magnitude m)` to itself for `m ≥ 0` yields direction 0 and
magnitude `2m`. -/
theorem vector_add_comm_assoc_and_double (a b c : Vector) (m : ℝ) (hm : 0 ≤ m) :
    ((a + b).horizontal_component = (b + a).horizontal_component ∧
     (a + b).vertical_component = (b + a).vertical_component ∧
     ((a + b) + c).horizontal_component = (a + (b + c)).horizontal_component ∧
     ((a + b) + c).vertical_component = (a + (b + c)).vertical_component) ∧
    (((⟨0, m⟩ : Vector) + ⟨0, m⟩).direction = 0 ∧
     ((⟨0, m⟩ : Vector) + ⟨0, m⟩).magnitude = 2 * m) := by
  have hx : (⟨0, m⟩ : Vector).horizontal_component = m := by
    simp [Vector.horizontal_component]
  have hy : (⟨0, m⟩ : Vector).vertical_component = 0 := by
    simp [Vector.vertical_component]
  refine ⟨⟨?_, ?_, ?_, ?_⟩, ?_, ?_⟩
  · rw [Vector.horizontal_component_add, Vector.horizontal_component_add]; ring
  · rw [Vector.vertical_component_add, Vector.vertical_component_add]; ring
  · rw [Vector.horizontal_component_add, Vector.horizontal_component_add,
      Vector.horizontal_component_add, Vector.horizontal_component_add]; ring
  · rw [Vector.vertical_component_add, Vector.vertical_component_add,
      Vector.vertical_component_add, Vector.vertical_component_add]; ring
  · show (Vector.add _ _).direction = 0
    simp only [Vector.add, hx, hy, add_zero]
    show Complex.arg ((m + m : ℝ) : ℂ) = 0
    exact Complex.arg_ofReal_of_nonneg (by linarith)
  · show (Vector.add _ _).magnitude = 2 * m
    simp only [Vector.add, hx, hy, add_zero, mul_zero, zero_mul]
    rw [Real.sqrt_mul_self (by linarith : (0 : ℝ) ≤ m + m)]
    ring

/-- Witness for C5 at concrete inputs: three concrete vectors and `m = 3`. -/
theorem vector_add_comm_assoc_and_double_witness :
    (0 : ℝ) ≤ 3 ∧
    ((((⟨0, 1⟩ : Vector) + ⟨1, 2⟩).horizontal_component
        = ((⟨1, 2⟩ : Vector) + ⟨0, 1⟩).horizontal_component ∧
      ((⟨0, 1⟩ : Vector) + ⟨1, 2⟩).vertical_component
        = ((⟨1, 2⟩ : Vector) + ⟨0, 1⟩).vertical_component ∧
      (((⟨0, 1⟩ : Vector) + ⟨1, 2⟩) + ⟨2, 3⟩).horizontal_component
        = ((⟨0, 1⟩ : Vector) + ((⟨1, 2⟩ : Vector) + ⟨2, 3⟩)).horizontal_component ∧
      (((⟨0, 1⟩ : Vector) + ⟨1, 2⟩) + ⟨2, 3⟩).vertical_component
        = ((⟨0, 1⟩ : Vector) + ((⟨1, 2⟩ : Vector) + ⟨2, 3⟩)).vertical_component) ∧
     (((⟨0, 3⟩ : Vector) + ⟨0, 3⟩).direction = 0 ∧
      ((⟨0, 3⟩ : Vector) + ⟨0, 3⟩).magnitude = 2 * 3)) :=
  ⟨by norm_num,
   vector_add_comm_assoc_and_double ⟨0, 1⟩ ⟨1, 2⟩ ⟨2, 3⟩ 3 (by norm_num)⟩

/-- `spawnRun` keeps the list ordered newest-first when the pending request
timestamps bound the current list and are themselves non-decreasing. -/
theorem spawnRun_sorted :
    ∀ (reqs : List ((ℝ × ℝ) × ℝ × ℝ × ℝ × ℝ)) (sparks : List Spark),
      List.Pairwise (fun a b => b.start_time ≤ a.start_time) sparks →
      (∀ sp ∈ sparks, ∀ r ∈ reqs, sp.start_time ≤ r.2.2.1) →
      List.Pairwise (fun a b => a.2.2.1 ≤ b.2.2.1) reqs →
      List.Pairwise (fun a b => b.start_time ≤ a.start_time) (spawnRun sparks reqs) := by
  intro reqs
  induction reqs with
  | nil => intro sparks hs _ _; exact hs
  | cons r rest ih =>
      intro sparks hs hb hr
      obtain ⟨pos, dir, t, dn, vn⟩ := r
      simp only [spawnRun, Spark.create]
      apply ih
      · refine List.Pairwise.cons ?_ hs
        intro sp hsp
        exact hb sp hsp _ (List.mem_cons_self _ _)
      · intro sp hsp r2 hr2
        rcases List.mem_cons.mp hsp with h | h
        · subst h
          exact (List.pairwise_cons.mp hr).1 r2 hr2
        · exact hb sp h r2 (List.mem_cons_of_mem _ hr2)
      · exact (List.pairwise_cons.mp hr).2

/-- Claim C7: every spark creation inserts the new spark at index 0 of the
shared list (the result is exactly the new spark consed onto the old list);
consequently a run of creations whose spawn timestamps are non-decreasing,
starting from the empty list, leaves after every spawn a list ordered from
newest (index 0) to oldest (last index). -/
theorem spark_inserted_at_front (position : ℝ × ℝ)
    (direction start_time dnoise vnoise : ℝ) (sparks : List Spark)
    (reqs : List ((ℝ × ℝ) × ℝ × ℝ × ℝ × ℝ))
    (hreq : List.Pairwise (fun a b => a.2.2.1 ≤ b.2.2.1) reqs) :
    Spark.create position direction start_time dnoise vnoise sparks =
      Spark.init position direction start_time dnoise vnoise :: sparks ∧
    ∀ k : ℕ, List.Pairwise (fun a b => b.start_time ≤ a.start_time)
      (spawnRun [] (reqs.take k)) :=
  ⟨rfl, fun k =>
    spawnRun_sorted (reqs.take k) [] (by simp) (by simp)
      (List.Pairwise.sublist (List.take_sublist k reqs) hreq)⟩

/-- Witness for C7 at a concrete input: two creation requests with timestamps
`1 ≤ 2`. -/
theorem spark_inserted_at_front_witness :
    List.Pairwise (fun a b => a.2.2.1 ≤ b.2.2.1)
      [((0, 0), 0, 1, 0, 0), ((0, 0), 0, 2, 0, 0)] ∧
    (Spark.create (0, 0) 0 1 0 0 [] = [Spark.init (0, 0) 0 1 0 0] ∧
     ∀ k : ℕ, List.Pairwise (fun a b => b.start_time ≤ a.start_time)
       (spawnRun [] ([((0, 0), 0, 1, 0, 0), ((0, 0), 0, 2, 0, 0)].take k))) :=
  ⟨by norm_num,
   spark_inserted_at_front (0, 0) 0 1 0 0 []
     [((0, 0), 0, 1, 0, 0), ((0, 0), 0, 2, 0, 0)] (by norm_num)⟩

/-- Unfolding equation for `Spark.update_all` on a non-empty list. -/
theorem Spark.update_all_cons (delta_t now : ℝ) (hd : Spark) (rest : List Spark) :
    Spark.update_all delta_t now (hd :: rest) =
      if (now - hd.start_time) / SPARK_LIFETIME > 1 then []
      else
        ({ hd with age := (now - hd.start_time) / SPARK_LIFETIME } : Spark).update delta_t ::
          Spark.update_all delta_t now rest := rfl

/-- `Spark.update` does not change the spawn time. -/
theorem Spark.update_start_time (sp : Spark) (delta_t : ℝ) :
    (sp.update delta_t).start_time = sp.start_time := rfl

/-- `Spark.update` does not change the age. -/
theorem Spark.update_age_eq (sp : Spark) (delta_t : ℝ) :
    (sp.update delta_t).age = sp.age := rfl

/-- The spawn times surviving `Spark.update_all` are exactly the longest
prefix of the input's spawn times whose recomputed age is at most 1. -/
theorem Spark.update_all_start_times (delta_t now : ℝ) :
    ∀ l : List Spark,
      (Spark.update_all delta_t now l).map Spark.start_time =
        (l.map Spark.start_time).takeWhile
          (fun t => decide ((now - t) / SPARK_LIFETIME ≤ 1)) := by
  intro l
  induction l with
  | nil => rfl
  | cons hd rest ih =>
      rw [Spark.update_all_cons, List.map_cons, List.takeWhile_cons]
      by_cases hc : (now - hd.start_time) / SPARK_LIFETIME > 1
      · rw [if_pos hc, decide_eq_false (not_le.mpr hc)]
        simp
      · rw [if_neg hc]
        push_neg at hc
        rw [decide_eq_true hc]
        simp only [List.map_cons, Spark.update_start_time, if_true]
        rw [ih]

/-- Every spark surviving `Spark.update_all` has (recomputed) age at most 1. -/
theorem Spark.update_all_ages (delta_t now : ℝ) :
    ∀ l : List Spark, ∀ sp2 ∈ Spark.update_all delta_t now l,
      sp2.age ≤ 1 ∧ (now - sp2.start_time) / SPARK_LIFETIME ≤ 1 := by
  intro l
  induction l with
  | nil => intro sp2 h; simp [Spark.update_all] at h
  | cons hd rest ih =>
      intro sp2 h
      rw [Spark.update_all_cons] at h
      by_cases hc : (now - hd.start_time) / SPARK_LIFETIME > 1
      · rw [if_pos hc] at h
        simp at h
      · rw [if_neg hc] at h
        push_neg at hc
        rcases List.mem_cons.mp h with h2 | h2
        · subst h2
          rw [Spark.update_age_eq, Spark.update_start_time]
          exact ⟨hc, hc⟩
        · exact ih sp2 h2

/-- In a newest-first list, every spark whose recomputed age is at most 1
survives `Spark.update_all` (its spawn time is still present). -/
theorem Spark.update_all_mem (delta_t now : ℝ) :
    ∀ l : List Spark, List.Pairwise (fun a b => b.start_time ≤ a.start_time) l →
      ∀ sp ∈ l, (now - sp.start_time) / SPARK_LIFETIME ≤ 1 →
        ∃ sp2 ∈ Spark.update_all delta_t now l, sp2.start_time = sp.start_time := by
  intro l
  induction l with
  | nil => intro _ sp h; simp at h
  | cons hd rest ih =>
      intro hsort sp hmem hage
      have hhd : (now - hd.start_time) / SPARK_LIFETIME ≤ 1 := by
        rcases List.mem_cons.mp hmem with h | h
        · subst h; exact hage
        · have hle : sp.start_time ≤ hd.start_time := (List.pairwise_cons.mp hsort).1 sp h
          have hlife : (0 : ℝ) < SPARK_LIFETIME := by norm_num [SPARK_LIFETIME]
          have hmono : (now - hd.start_time) / SPARK_LIFETIME
              ≤ (now - sp.start_time) / SPARK_LIFETIME :=
            (div_le_div_iff_of_pos_right hlife).mpr (by linarith)
          exact le_trans hmono hage
      rw [Spark.update_all_cons, if_neg (not_lt.mpr hhd)]
      rcases List.mem_cons.mp hmem with h | h
      · subst h
        exact ⟨_, List.mem_cons_self _ _, Spark.update_start_time _ _⟩
      · obtain ⟨sp2, hsp2, heq⟩ :=
          ih (List.pairwise_cons.mp hsort).2 sp h hage
        exact ⟨sp2, List.mem_cons_of_mem _ hsp2, heq⟩

/-- Claim C2: `Spark.update_all` recomputes each spark's age front-to-back and
truncates the list at the first expired spark: the surviving spawn times are
exactly the longest prefix whose recomputed age `(now - t)/SPARK_LIFETIME` is
at most 1; every survivor's age is at most 1 (so any spark past that threshold
is absent from the result of the call); and in a newest-first list every spark
still within its lifetime survives the call. -/
theorem spark_expiry (delta_t now : ℝ) (l : List Spark) (sp : Spark)
    (hsort : List.Pairwise (fun a b => b.start_time ≤ a.start_time) l)
    (hmem : sp ∈ l) (hage : (now - sp.start_time) / SPARK_LIFETIME ≤ 1) :
    ((Spark.update_all delta_t now l).map Spark.start_time =
      (l.map Spark.start_time).takeWhile
        (fun t => decide ((now - t) / SPARK_LIFETIME ≤ 1))) ∧
    (∀ sp2 ∈ Spark.update_all delta_t now l,
      sp2.age ≤ 1 ∧ (now - sp2.start_time) / SPARK_LIFETIME ≤ 1) ∧
    (∃ sp2 ∈ Spark.update_all delta_t now l, sp2.start_time = sp.start_time) :=
  ⟨Spark.update_all_start_times delta_t now l,
   Spark.update_all_ages delta_t now l,
   Spark.update_all_mem delta_t now l hsort sp hmem hage⟩

/-- Witness for C2 at a concrete input: a newest-first list with spawn times
`5` and `3` at `now = 5.5` — the newer spark (age `0.5`) survives, the older
one (age `2.5`) is cut. -/
theorem spark_expiry_witness :
    (List.Pairwise (fun a b => b.start_time ≤ a.start_time)
        [Spark.init (0, 0) 0 5 0 0, Spark.init (0, 0) 0 3 0 0] ∧
      Spark.init (0, 0) 0 5 0 0 ∈ [Spark.init (0, 0) 0 5 0 0, Spark.init (0, 0) 0 3 0 0] ∧
      ((5.5 : ℝ) - (Spark.init (0, 0) 0 5 0 0).start_time) / SPARK_LIFETIME ≤ 1) ∧
    (((Spark.update_all 1 5.5
          [Spark.init (0, 0) 0 5 0 0, Spark.init (0, 0) 0 3 0 0]).map Spark.start_time =
        ([Spark.init (0, 0) 0 5 0 0, Spark.init (0, 0) 0 3 0 0].map
            Spark.start_time).takeWhile
          (fun t => decide (((5.5 : ℝ) - t) / SPARK_LIFETIME ≤ 1))) ∧
     (∀ sp2 ∈ Spark.update_all 1 5.5
          [Spark.init (0, 0) 0 5 0 0, Spark.init (0, 0) 0 3 0 0],
        sp2.age ≤ 1 ∧ ((5.5 : ℝ) - sp2.start_time) / SPARK_LIFETIME ≤ 1) ∧
     (∃ sp2 ∈ Spark.update_all 1 5.5
          [Spark.init (0, 0) 0 5 0 0, Spark.init (0, 0) 0 3 0 0],
        sp2.start_time = (Spark.init (0, 0) 0 5 0 0).start_time)) :=
  ⟨⟨by norm_num [Spark.init], by simp, by norm_num [Spark.init, SPARK_LIFETIME]⟩,
   spark_expiry 1 5.5 [Spark.init (0, 0) 0 5 0 0, Spark.init (0, 0) 0 3 0 0]
     (Spark.init (0, 0) 0 5 0 0)
     (by norm_num [Spark.init]) (by simp)
     (by norm_num [Spark.init, SPARK_LIFETIME])⟩

end

end Lander
